import Mathlib

/-!
Verification of the `lockedfile` package (cmd/go/_internal_/lockedfile).

The package wraps a platform lock primitive (`openFile` / `closeFile`,
defined in platform files outside the visible source) with a `File`
handle that tracks a `closed` flag, arms a runtime finalizer on
successful open, and offers whole-file `Read` and `Write` helpers.

Shallow embedding: file-system and lock state is an explicit `World`;
the outcomes of the external primitives and of the I/O steps that can
fail (`ioutil.ReadAll`, `io.Copy`, the unlock+close of `closeFile`)
are supplied as explicit fault oracles (`none` = success,
`some e` = that step fails with error `e`), so that every control path
of the Go source is a reachable case of the Lean definitions.
-/

namespace Lockedfile

/-- Go error values relevant to the package: `os.ErrClosed`,
`os.ErrNotExist`, an `*os.PathError` wrapper (with `Op`, `Path`, and a
wrapped `Err`, as unwrapped by `errors.Is`), a lock-acquisition
conflict, and generic I/O errors. -/
inductive GoError where
  | errClosed : GoError
  | errNotExist : GoError
  | pathError (op : String) (path : String) (err : GoError) : GoError
  | lockConflict (path : String) : GoError
  | ioError (msg : String) : GoError
deriving DecidableEq

/-- `errors.Is(e, target)`: `e` matches `target` directly or after
unwrapping `*os.PathError` (whose `Unwrap` returns its `Err` field). -/
def errorsIs (e target : GoError) : Bool :=
  e == target ||
    match e with
    | .pathError _ _ inner => errorsIs inner target
    | _ => false

/-- Advisory lock mode: shared (read) or exclusive (write). -/
inductive LockMode where
  | shared : LockMode
  | exclusive : LockMode
deriving DecidableEq

/-- The open flags the package uses: `write` is `O_WRONLY`/`O_RDWR`,
`create` is `O_CREATE`, `trunc` is `O_TRUNC`. -/
structure Flags where
  write : Bool
  create : Bool
  trunc : Bool
deriving DecidableEq

/-- Contents and permission bits of one file on disk. -/
structure FileData where
  content : List Nat
  perm : Nat
deriving DecidableEq

/-- The world the primitives act on: file contents per path, the list
of advisory locks currently held (most recent first), and an
instrumentation counter of how many times `closeFile` has run. -/
structure World where
  fs : String → Option FileData
  locks : List (String × LockMode)
  releases : Nat

/-- Point update of the file-system map. -/
def updFS (fs : String → Option FileData) (n : String) (d : FileData) :
    String → Option FileData :=
  fun m => if m = n then some d else fs m

/-- Whether taking a lock of mode `m` on `name` conflicts with a held
lock: a shared lock coexists only with shared locks. -/
def lockConflicts (locks : List (String × LockMode)) (name : String)
    (m : LockMode) : Bool :=
  locks.any (fun l => l.1 == name && (m == .exclusive || l.2 == .exclusive))

/-- Remove the most recently taken lock on `name`. -/
def removeLock : List (String × LockMode) → String → List (String × LockMode)
  | [], _ => []
  | l :: ls, n => if l.1 = n then ls else l :: removeLock ls n

/-- Modelled from the spec: the lock mode the primitive applies is
exclusive when the flags request write access, shared otherwise. -/
def lockModeOf (fl : Flags) : LockMode :=
  if fl.write then .exclusive else .shared

/-- Modelled from the spec: the platform lock primitive `acquire`
(`openFile` in the platform source files, which are not part of the
visible source). It opens `name` with standard create/truncate
semantics, then atomically applies an advisory lock whose mode is
exclusive when the flags request write access and shared otherwise; on
any failure no state changes and no descriptor leaks. `fault` is the
oracle for environment-caused open failures. -/
def openFile (w : World) (name : String) (fl : Flags) (perm : Nat)
    (fault : Option GoError) : Except GoError World :=
  match fault with
  | some e => .error e
  | none =>
    if lockConflicts w.locks name (lockModeOf fl) then
      .error (.lockConflict name)
    else
      match w.fs name with
      | none =>
        if fl.create then
          .ok { w with fs := updFS w.fs name ⟨[], perm⟩,
                       locks := (name, lockModeOf fl) :: w.locks }
        else
          .error (.pathError "open" name .errNotExist)
      | some d =>
        .ok { w with fs := updFS w.fs name
                       (if fl.trunc then ⟨[], d.perm⟩ else d),
                     locks := (name, lockModeOf fl) :: w.locks }

/-- Modelled from the spec: the platform primitive `release`
(`closeFile` in the platform source files, not part of the visible
source): unlocks and closes the descriptor as a single logical step;
`fault` is the oracle for its error result. -/
def closeFile (w : World) (name : String) (fault : Option GoError) :
    World × Option GoError :=
  ({ w with locks := removeLock w.locks name, releases := w.releases + 1 },
   fault)

/-- A locked `File` handle: its display name (the path), the `closed`
flag, and whether the leak-detection finalizer is currently armed. -/
structure File where
  name : String
  closed : Bool
  finalizerArmed : Bool
deriving DecidableEq

/-- The message of the finalizer panic armed by `OpenFile`:
`fmt.Sprintf("lockedfile.File %s became unreachable without a call to
Close", f.Name())`. -/
def finalizerMessage (f : File) : String :=
  "lockedfile.File " ++ f.name ++ " became unreachable without a call to Close"

/-- `OpenFile`: delegates to the primitive `openFile`; on failure the
error is returned unchanged and no handle exists; on success the
handle is open (`closed = false`) and the leak finalizer is armed. -/
def OpenFile (w : World) (name : String) (fl : Flags) (perm : Nat)
    (fault : Option GoError) : World × Except GoError File :=
  match openFile w name fl perm fault with
  | .error e => (w, .error e)
  | .ok w1 => (w1, .ok { name := name, closed := false, finalizerArmed := true })

/-- Flags of `Open`: `os.O_RDONLY`. -/
def rdonlyFlags : Flags := ⟨false, false, false⟩

/-- Flags of `Create`: `os.O_RDWR | os.O_CREATE | os.O_TRUNC`. -/
def createFlags : Flags := ⟨true, true, true⟩

/-- Flags of `Edit`: `os.O_RDWR | os.O_CREATE`. -/
def editFlags : Flags := ⟨true, true, false⟩

/-- Flags used inside `Write`: `os.O_WRONLY | os.O_CREATE | os.O_TRUNC`. -/
def writeFlags : Flags := ⟨true, true, true⟩

/-- `Open(name)`: `OpenFile(name, os.O_RDONLY, 0)`. -/
def Open (w : World) (name : String) (fault : Option GoError) :
    World × Except GoError File :=
  OpenFile w name rdonlyFlags 0 fault

/-- `Create(name)`: `OpenFile(name, os.O_RDWR|os.O_CREATE|os.O_TRUNC, 0666)`
(0666 = 438). -/
def Create (w : World) (name : String) (fault : Option GoError) :
    World × Except GoError File :=
  OpenFile w name createFlags 438 fault

/-- `Edit(name)`: `OpenFile(name, os.O_RDWR|os.O_CREATE, 0666)`. -/
def Edit (w : World) (name : String) (fault : Option GoError) :
    World × Except GoError File :=
  OpenFile w name editFlags 438 fault

/-- `File.Close`: if already closed, return `&os.PathError{Op: "close",
Path: f.Name(), Err: os.ErrClosed}`; otherwise set `closed`, call
`closeFile`, clear the finalizer, and return `closeFile`'s error. -/
def File.Close (w : World) (f : File) (fault : Option GoError) :
    World × File × Option GoError :=
  if f.closed then
    (w, f, some (.pathError "close" f.name .errClosed))
  else
    let p := closeFile w f.name fault
    (p.1, { f with closed := true, finalizerArmed := false }, p.2)

/-- A sequence of `Close` calls on the same handle, one fault oracle
per call; returns the final world and handle and the list of results. -/
def closeSeq (w : World) (f : File) (faults : List (Option GoError)) :
    World × File × List (Option GoError) :=
  match faults with
  | [] => (w, f, [])
  | r :: rs =>
    let s := File.Close w f r
    let t := closeSeq s.1 s.2.1 rs
    (t.1, t.2.1, s.2.2 :: t.2.2)

/-- `Read(name)`: `Open` the file; on failure return the error;
otherwise read the whole content (`ioutil.ReadAll`, fault oracle
`readFault`), then the deferred `f.Close()` runs (its error is
discarded) and the read result is returned. -/
def Read (w : World) (name : String)
    (openFault readFault closeFault : Option GoError) :
    World × Except GoError (List Nat) :=
  match Open w name openFault with
  | (w0, .error e) => (w0, .error e)
  | (w1, .ok f) =>
    let res : Except GoError (List Nat) :=
      match readFault with
      | some e => .error e
      | none => .ok (match w1.fs name with
                     | some d => d.content
                     | none => [])
    let c := File.Close w1 f closeFault
    (c.1, res)

/-- Overwrite the content of `name`, keeping its permission bits
(the effect of a successful `io.Copy` into a just-truncated file). -/
def setContent (w : World) (name : String) (content : List Nat) : World :=
  match w.fs name with
  | some d => { w with fs := updFS w.fs name ⟨content, d.perm⟩ }
  | none => { w with fs := updFS w.fs name ⟨content, 0⟩ }

/-- `Write(name, content, perm)`: `OpenFile` with
`os.O_WRONLY|os.O_CREATE|os.O_TRUNC`; on failure return the error;
otherwise `io.Copy` the content (fault oracle `copyFault`), then
`Close` (fault oracle `closeFault`); the close error replaces the
result only when the copy error is nil. -/
def Write (w : World) (name : String) (content : List Nat) (perm : Nat)
    (openFault copyFault closeFault : Option GoError) :
    World × Option GoError :=
  match OpenFile w name writeFlags perm openFault with
  | (w0, .error e) => (w0, some e)
  | (w1, .ok f) =>
    let cp : World × Option GoError :=
      match copyFault with
      | some e => (w1, some e)
      | none => (setContent w1 name content, none)
    let cl := File.Close cp.1 f closeFault
    let err : Option GoError :=
      match cp.2 with
      | none => cl.2.2
      | some e => some e
    (cl.1, err)

/-- Whether the primitive open succeeds on this input. -/
def opensOK (w : World) (name : String) (fl : Flags) (perm : Nat)
    (fault : Option GoError) : Bool :=
  match openFile w name fl perm fault with
  | .ok _ => true
  | .error _ => false

/-- An empty initial world: no files, no locks. -/
def emptyWorld : World := ⟨fun _ => none, [], 0⟩

/-- The error a second `Close` returns:
`&os.PathError{Op: "close", Path: f.Name(), Err: os.ErrClosed}`. -/
def alreadyClosedErr (name : String) : GoError :=
  .pathError "close" name .errClosed

lemma closeSeq_of_closed (w : World) (f : File) (h : f.closed = true)
    (faults : List (Option GoError)) :
    closeSeq w f faults =
      (w, f, faults.map (fun _ => some (alreadyClosedErr f.name))) := by
  induction faults generalizing w with
  | nil => simp [closeSeq]
  | cons r rs ih => simp [closeSeq, File.Close, h, ih, alreadyClosedErr]

lemma close_of_open (w : World) (f : File) (h : f.closed = false)
    (fault : Option GoError) :
    File.Close w f fault =
      ({ w with locks := removeLock w.locks f.name,
                releases := w.releases + 1 },
       { f with closed := true, finalizerArmed := false }, fault) := by
  simp [File.Close, h, closeFile]

/-- C1: after a successful open, the first `Close` returns exactly the
release outcome and every subsequent `Close` returns the AlreadyClosed
error (`os.ErrClosed` wrapped in a `PathError`), which generic
closed-descriptor checks (`errors.Is(err, os.ErrClosed)`) match. -/
theorem close_first_then_already_closed (w : World) (f : File)
    (h : f.closed = false) (r : Option GoError) (rs : List (Option GoError)) :
    (closeSeq w f (r :: rs)).2.2 =
      r :: rs.map (fun _ => some (alreadyClosedErr f.name))
    ∧ errorsIs (alreadyClosedErr f.name) .errClosed = true := by
  constructor
  · simp [closeSeq, close_of_open w f h r,
      closeSeq_of_closed _ { f with closed := true, finalizerArmed := false }
        rfl rs]
  · simp [errorsIs, alreadyClosedErr]

/-- C1 witness at a concrete handle and fault sequence. -/
theorem close_first_then_already_closed_witness :
    (closeSeq emptyWorld ⟨"p", false, true⟩
        [some (.ioError "rel"), none]).2.2 =
      [some (.ioError "rel"), some (alreadyClosedErr "p")]
    ∧ errorsIs (alreadyClosedErr "p") .errClosed = true :=
  close_first_then_already_closed emptyWorld ⟨"p", false, true⟩ rfl
    (some (.ioError "rel")) [none]

/-- C6: the first `Close` of an open handle clears the leak finalizer
unconditionally, for every outcome of the underlying `closeFile`. -/
theorem first_close_disarms_guard (w : World) (f : File)
    (h : f.closed = false) (fault : Option GoError) :
    ((File.Close w f fault).2.1).finalizerArmed = false := by
  simp [close_of_open w f h fault]

/-- C6 witness: a first `Close` whose release fails still disarms. -/
theorem first_close_disarms_guard_witness :
    ((File.Close emptyWorld ⟨"p", false, true⟩
        (some (.ioError "rel"))).2.1).finalizerArmed = false :=
  first_close_disarms_guard emptyWorld ⟨"p", false, true⟩ rfl
    (some (.ioError "rel"))

/-- C8: the `closed` flag is monotonic: a handle constructed by a
successful `OpenFile` has `closed = false`; any `Close` leaves the
handle with `closed = true` (also when the release fails); and once
`closed` is true it stays true under any further sequence of `Close`
calls. -/
theorem closed_monotonic :
    (∀ w name fl perm fault f1,
        (OpenFile w name fl perm fault).2 = .ok f1 → f1.closed = false)
    ∧ (∀ w f fault, ((File.Close w f fault).2.1).closed = true)
    ∧ (∀ w f faults, f.closed = true →
        ((closeSeq w f faults).2.1).closed = true) := by
  refine ⟨?_, ?_, ?_⟩
  · intro w name fl perm fault f1 h1
    unfold OpenFile at h1
    cases ho : openFile w name fl perm fault <;> simp [ho] at h1
    subst h1; rfl
  · intro w f fault
    by_cases h : f.closed = true
    · simp [File.Close, h]
    · simp at h
      simp [close_of_open w f h fault]
  · intro w f faults h
    simp [closeSeq_of_closed w f h faults, h]

/-- C8 witness at concrete handles. -/
theorem closed_monotonic_witness :
    (File.mk "p" false true).closed = false
    ∧ ((closeSeq emptyWorld ⟨"p", true, false⟩
        [none, some (.ioError "x")]).2.1).closed = true :=
  ⟨closed_monotonic.1 emptyWorld "p" createFlags 438 none ⟨"p", false, true⟩
      rfl,
   closed_monotonic.2.2 emptyWorld ⟨"p", true, false⟩
      [none, some (.ioError "x")] rfl⟩

/-- C10: `closeFile` runs at most once per handle: over any sequence of
`Close` calls on a handle that starts open, the release counter rises
by exactly one when at least one `Close` occurs (even when that release
fails), and on a handle already closed it never rises. -/
theorem release_attempted_once (w : World) (f : File)
    (faults : List (Option GoError)) :
    (f.closed = false → (closeSeq w f faults).1.releases =
        w.releases + (if faults.isEmpty then 0 else 1))
    ∧ (f.closed = true → (closeSeq w f faults).1.releases = w.releases) := by
  constructor
  · intro h
    cases faults with
    | nil => simp [closeSeq]
    | cons r rs =>
      simp [closeSeq, close_of_open w f h r,
        closeSeq_of_closed _
          { f with closed := true, finalizerArmed := false } rfl rs]
  · intro h
    simp [closeSeq_of_closed w f h faults]

/-- C10 witness: two closes, the first release failing, bump the
release counter exactly once. -/
theorem release_attempted_once_witness :
    (closeSeq emptyWorld ⟨"p", false, true⟩
        [some (.ioError "rel"), none]).1.releases = emptyWorld.releases +
      (if ([some (GoError.ioError "rel"), none]).isEmpty then 0 else 1) :=
  (release_attempted_once emptyWorld ⟨"p", false, true⟩
      [some (.ioError "rel"), none]).1 rfl

lemma updFS_same (fs : String → Option FileData) (n : String) (d : FileData) :
    updFS fs n d n = some d := by
  simp [updFS]

lemma openFile_some (w : World) (name : String) (fl : Flags) (perm : Nat)
    (e : GoError) : openFile w name fl perm (some e) = .error e := rfl

lemma openFile_none (w : World) (name : String) (fl : Flags) (perm : Nat) :
    openFile w name fl perm none =
      (if lockConflicts w.locks name (lockModeOf fl) then
        .error (.lockConflict name)
      else
        match w.fs name with
        | none =>
          if fl.create then
            .ok { w with fs := updFS w.fs name ⟨[], perm⟩,
                         locks := (name, lockModeOf fl) :: w.locks }
          else
            .error (.pathError "open" name .errNotExist)
        | some d =>
          .ok { w with fs := updFS w.fs name
                         (if fl.trunc then ⟨[], d.perm⟩ else d),
                       locks := (name, lockModeOf fl) :: w.locks }) := rfl

lemma openFile_ok_inv (w : World) (name : String) (fl : Flags) (perm : Nat)
    (fault : Option GoError) (w1 : World)
    (h : openFile w name fl perm fault = .ok w1) :
    fault = none
    ∧ lockConflicts w.locks name (lockModeOf fl) = false
    ∧ w1.locks = (name, lockModeOf fl) :: w.locks
    ∧ w1.releases = w.releases
    ∧ ∃ d : FileData, w1.fs = updFS w.fs name d
        ∧ (fl.trunc = true → d.content = [])
        ∧ (w.fs name = none → d = ⟨[], perm⟩)
        ∧ (∀ d0, w.fs name = some d0 →
            d = if fl.trunc then ⟨[], d0.perm⟩ else d0) := by
  cases fault with
  | some e =>
    rw [openFile_some] at h
    exact Except.noConfusion h
  | none =>
    rw [openFile_none] at h
    refine ⟨rfl, ?_⟩
    split at h
    next hc => exact Except.noConfusion h
    next hc =>
      refine ⟨by simpa using hc, ?_⟩
      split at h
      next hfs =>
        split at h
        next hcr =>
          cases h
          refine ⟨rfl, rfl, ⟨[], perm⟩, rfl, fun _ => rfl, fun _ => rfl,
            fun d0 hd0 => ?_⟩
          rw [hfs] at hd0
          exact Option.noConfusion hd0
        next hcr => exact Except.noConfusion h
      next d0 hfs =>
        cases h
        refine ⟨rfl, rfl, (if fl.trunc then ⟨[], d0.perm⟩ else d0), rfl,
          ?_, ?_, ?_⟩
        · intro ht; simp [ht]
        · intro hn; rw [hfs] at hn; exact Option.noConfusion hn
        · intro d1 hd1
          rw [hfs] at hd1
          cases hd1
          rfl

/-- C2: given a successful open inside `Write`, a copy failure is the
returned error even when the close also fails; a close failure after a
successful copy is returned instead of nil; and `Write` returns nil
exactly when both the copy and the close succeed. -/
theorem write_error_precedence (w : World) (name : String)
    (content : List Nat) (perm : Nat) (w1 : World)
    (h : openFile w name writeFlags perm none = .ok w1) :
    (∀ e closeFault,
        (Write w name content perm none (some e) closeFault).2 = some e)
    ∧ (∀ closeFault,
        (Write w name content perm none none closeFault).2 = closeFault)
    ∧ (∀ copyFault closeFault,
        (Write w name content perm none copyFault closeFault).2 = none ↔
          copyFault = none ∧ closeFault = none) := by
  have hw : OpenFile w name writeFlags perm none =
      (w1, .ok ⟨name, false, true⟩) := by
    unfold OpenFile; rw [h]
  refine ⟨?_, ?_, ?_⟩
  · intro e closeFault
    simp [Write, hw, File.Close, closeFile]
  · intro closeFault
    simp [Write, hw, File.Close, closeFile]
  · intro copyFault closeFault
    cases copyFault <;> simp [Write, hw, File.Close, closeFile]

/-- C2 witness at a concrete path and faults. -/
theorem write_error_precedence_witness :
    ((Write emptyWorld "p" [104] 438 none (some (.ioError "copy"))
        (some (.ioError "close"))).2 = some (.ioError "copy"))
    ∧ ((Write emptyWorld "p" [104] 438 none none
        (some (.ioError "close"))).2 = some (.ioError "close")) :=
  have h : openFile emptyWorld "p" writeFlags 438 none =
      .ok { fs := updFS emptyWorld.fs "p" ⟨[], 438⟩,
            locks := [("p", .exclusive)], releases := 0 } := by rfl
  ⟨(write_error_precedence emptyWorld "p" [104] 438 _ h).1
      (.ioError "copy") (some (.ioError "close")),
   (write_error_precedence emptyWorld "p" [104] 438 _ h).2.1
      (some (.ioError "close"))⟩

lemma removeLock_cons_self (name : String) (m : LockMode)
    (ls : List (String × LockMode)) :
    removeLock ((name, m) :: ls) name = ls := by
  simp [removeLock]

/-- C3: `Read` never leaves the path locked: the lock state after
`Read` equals the lock state before, on every exit path; and the
handle `Read` opens is closed exactly when the open succeeds (the
release counter rises by one then, and not at all when the open
fails and no handle exists). -/
theorem read_never_leaves_locked (w : World) (name : String)
    (openFault readFault closeFault : Option GoError) :
    (Read w name openFault readFault closeFault).1.locks = w.locks
    ∧ (Read w name openFault readFault closeFault).1.releases =
        w.releases +
          (if opensOK w name rdonlyFlags 0 openFault then 1 else 0) := by
  unfold Read Open opensOK
  cases ho : openFile w name rdonlyFlags 0 openFault with
  | error e => simp [OpenFile, ho]
  | ok w1 =>
    obtain ⟨-, -, hlocks, hrel, -⟩ := openFile_ok_inv w name _ 0 _ w1 ho
    have hw : OpenFile w name rdonlyFlags 0 openFault =
        (w1, .ok ⟨name, false, true⟩) := by
      unfold OpenFile; rw [ho]
    simp [hw, File.Close, closeFile, hlocks, hrel,
      removeLock_cons_self]

/-- C9: (implicit) `Read` discards its internal close error: when the
open and the whole-file read succeed, `Read` returns the bytes with no
error for every outcome of the lock-releasing close — in contrast to
`Write`, which surfaces the close error. -/
theorem read_discards_close_error (w : World) (name : String) (d : FileData)
    (hfs : w.fs name = some d)
    (hl : w.locks.all (fun l => !(l.1 == name)) = true) :
    (∀ closeFault, (Read w name none none closeFault).2 = .ok d.content)
    ∧ (∀ e content perm,
        (Write w name content perm none none (some e)).2 = some e) := by
  have hnc : ∀ m, lockConflicts w.locks name m = false := by
    intro m
    simp only [List.all_eq_true] at hl
    simp only [lockConflicts, List.any_eq_false]
    intro l hlm
    have := hl l hlm
    simp at this
    simp [this]
  constructor
  · intro closeFault
    have ho : openFile w name rdonlyFlags 0 none =
        .ok { w with fs := updFS w.fs name d,
                     locks := (name, lockModeOf rdonlyFlags) :: w.locks } := by
      unfold openFile
      rw [if_neg (by simp [hnc]), hfs]
      rfl
    have hw : OpenFile w name rdonlyFlags 0 none =
        ({ w with fs := updFS w.fs name d,
                  locks := (name, lockModeOf rdonlyFlags) :: w.locks },
         .ok ⟨name, false, true⟩) := by
      unfold OpenFile; rw [ho]
    simp [Read, Open, hw, File.Close, closeFile, updFS_same, hfs]
  · intro e content perm
    have ho : openFile w name writeFlags perm none =
        .ok { w with fs := updFS w.fs name ⟨[], d.perm⟩,
                     locks := (name, lockModeOf writeFlags) :: w.locks } := by
      unfold openFile
      rw [if_neg (by simp [hnc]), hfs]
      rfl
    have hw : OpenFile w name writeFlags perm none =
        ({ w with fs := updFS w.fs name ⟨[], d.perm⟩,
                  locks := (name, lockModeOf writeFlags) :: w.locks },
         .ok ⟨name, false, true⟩) := by
      unfold OpenFile; rw [ho]
    simp [Write, hw, File.Close, closeFile]

/-- C9 witness on a concrete one-file world. -/
theorem read_discards_close_error_witness :
    (Read { fs := updFS emptyWorld.fs "p" ⟨[104, 105], 438⟩, locks := [],
            releases := 0 } "p" none none (some (.ioError "rel"))).2 =
      .ok [104, 105] :=
  (read_discards_close_error
      { fs := updFS emptyWorld.fs "p" ⟨[104, 105], 438⟩, locks := [],
        releases := 0 } "p" ⟨[104, 105], 438⟩ rfl rfl).1
    (some (.ioError "rel"))

lemma OpenFile_eq_of_ok (w : World) (name : String) (fl : Flags) (perm : Nat)
    (fault : Option GoError) (w1 : World)
    (ho : openFile w name fl perm fault = .ok w1) :
    OpenFile w name fl perm fault =
      (w1, .ok ⟨name, false, true⟩) := by
  unfold OpenFile; rw [ho]

lemma OpenFile_eq_of_error (w : World) (name : String) (fl : Flags)
    (perm : Nat) (fault : Option GoError) (e : GoError)
    (ho : openFile w name fl perm fault = .error e) :
    OpenFile w name fl perm fault = (w, .error e) := by
  unfold OpenFile; rw [ho]

/-- C5: the leak guard is armed exactly on the successful-open path.
On success the returned handle is open, its finalizer is armed, and
the finalizer's fatal diagnostic names the handle's path; on failure
the primitive's error is returned unchanged and no state is held. -/
theorem openfile_guard_spec (w : World) (name : String) (fl : Flags)
    (perm : Nat) (fault : Option GoError) :
    (∀ f, (OpenFile w name fl perm fault).2 = .ok f →
        f.finalizerArmed = true ∧ f.closed = false ∧ f.name = name
        ∧ ∃ s t, finalizerMessage f = s ++ name ++ t)
    ∧ (∀ e, (OpenFile w name fl perm fault).2 = .error e →
        openFile w name fl perm fault = .error e
        ∧ (OpenFile w name fl perm fault).1 = w) := by
  constructor
  · intro f hf
    cases ho : openFile w name fl perm fault with
    | error e =>
      rw [OpenFile_eq_of_error w name fl perm fault e ho] at hf
      exact Except.noConfusion hf
    | ok w1 =>
      rw [OpenFile_eq_of_ok w name fl perm fault w1 ho] at hf
      injection hf with hf
      subst hf
      exact ⟨rfl, rfl, rfl, "lockedfile.File ",
        " became unreachable without a call to Close", rfl⟩
  · intro e he
    have h2 : openFile w name fl perm fault = .error e := by
      cases ho : openFile w name fl perm fault with
      | error e2 =>
        rw [OpenFile_eq_of_error w name fl perm fault e2 ho] at he
        injection he with he
        rw [he]
      | ok w1 =>
        rw [OpenFile_eq_of_ok w name fl perm fault w1 ho] at he
        exact Except.noConfusion he
    exact ⟨h2, by rw [OpenFile_eq_of_error w name fl perm fault e h2]⟩

/-- C5 witness: a concrete successful open arms the guard; a concrete
failing open returns the primitive's error with the world unchanged. -/
theorem openfile_guard_spec_witness :
    ((File.mk "p" false true).finalizerArmed = true
      ∧ (File.mk "p" false true).closed = false
      ∧ (File.mk "p" false true).name = "p"
      ∧ ∃ s t, finalizerMessage ⟨"p", false, true⟩ = s ++ "p" ++ t)
    ∧ (openFile emptyWorld "q" rdonlyFlags 0 (some (.ioError "denied")) =
          .error (.ioError "denied")
      ∧ (OpenFile emptyWorld "q" rdonlyFlags 0
          (some (.ioError "denied"))).1 = emptyWorld) :=
  ⟨(openfile_guard_spec emptyWorld "p" createFlags 438 none).1
      ⟨"p", false, true⟩ rfl,
   (openfile_guard_spec emptyWorld "q" rdonlyFlags 0
      (some (.ioError "denied"))).2 (.ioError "denied") rfl⟩

/-- C7: `Open` passes read-only flags and zero permission, `Create`
passes write+create+truncate with permission 0666, `Edit` passes
write+create without truncate with permission 0666; a successful
`Create` yields a zero-length file, and a successful `Edit` preserves
the bytes of a pre-existing file. -/
theorem open_create_edit_spec :
    (∀ w name fault,
        Open w name fault = OpenFile w name ⟨false, false, false⟩ 0 fault)
    ∧ (∀ w name fault,
        Create w name fault = OpenFile w name ⟨true, true, true⟩ 438 fault)
    ∧ (∀ w name fault,
        Edit w name fault = OpenFile w name ⟨true, true, false⟩ 438 fault)
    ∧ (∀ w name f1, (Create w name none).2 = .ok f1 →
        ∃ p, (Create w name none).1.fs name = some ⟨[], p⟩)
    ∧ (∀ w name d f1, w.fs name = some d → (Edit w name none).2 = .ok f1 →
        (Edit w name none).1.fs name = some d) := by
  refine ⟨fun _ _ _ => rfl, fun _ _ _ => rfl, fun _ _ _ => rfl, ?_, ?_⟩
  · intro w name f1 h1
    unfold Create at h1 ⊢
    cases ho : openFile w name createFlags 438 none with
    | error e =>
      rw [OpenFile_eq_of_error w name createFlags 438 none e ho] at h1
      exact Except.noConfusion h1
    | ok w1 =>
      rw [OpenFile_eq_of_ok w name createFlags 438 none w1 ho]
      obtain ⟨-, -, -, -, d, hfs, htr, -, -⟩ :=
        openFile_ok_inv w name createFlags 438 none w1 ho
      refine ⟨d.perm, ?_⟩
      rw [hfs, updFS_same]
      have hd : d.content = [] := htr rfl
      cases d with
      | mk c p => simp at hd; rw [hd]
  · intro w name d f1 hfs1 h1
    unfold Edit at h1 ⊢
    cases ho : openFile w name editFlags 438 none with
    | error e =>
      rw [OpenFile_eq_of_error w name editFlags 438 none e ho] at h1
      exact Except.noConfusion h1
    | ok w1 =>
      rw [OpenFile_eq_of_ok w name editFlags 438 none w1 ho]
      obtain ⟨-, -, -, -, d2, hfs, -, -, hkeep⟩ :=
        openFile_ok_inv w name editFlags 438 none w1 ho
      rw [hfs, updFS_same, hkeep d hfs1]
      rfl

/-- A concrete world with one unlocked file `"p"` holding bytes
`[1, 2]` with permission `7`, used by witnesses. -/
def wPre : World :=
  { fs := updFS emptyWorld.fs "p" ⟨[1, 2], 7⟩, locks := [], releases := 0 }

/-- C7 witness: concrete `Create` on an existing non-empty file yields
a zero-length file; concrete `Edit` preserves existing bytes. -/
theorem open_create_edit_spec_witness :
    (∃ p, (Create wPre "p" none).1.fs "p" = some ⟨[], p⟩)
    ∧ (Edit wPre "p" none).1.fs "p" = some ⟨[1, 2], 7⟩ :=
  ⟨open_create_edit_spec.2.2.2.1 wPre "p" ⟨"p", false, true⟩ rfl,
   open_create_edit_spec.2.2.2.2 wPre "p" ⟨[1, 2], 7⟩ ⟨"p", false, true⟩
     rfl rfl⟩

lemma lockConflicts_false_of_exclusive_false (L : List (String × LockMode))
    (name : String) (h : lockConflicts L name .exclusive = false)
    (m : LockMode) : lockConflicts L name m = false := by
  apply Bool.eq_false_iff.mpr
  intro hm
  rw [lockConflicts, List.any_eq_true] at hm
  obtain ⟨l, hl, hpred⟩ := hm
  rw [Bool.and_eq_true, beq_iff_eq] at hpred
  have h2 : lockConflicts L name .exclusive = true := by
    rw [lockConflicts, List.any_eq_true]
    refine ⟨l, hl, ?_⟩
    rw [Bool.and_eq_true, beq_iff_eq]
    exact ⟨hpred.1, by simp⟩
  rw [h] at h2
  exact Bool.noConfusion h2

lemma Read_ok_aux (w : World) (name : String) (d : FileData)
    (hfs : w.fs name = some d)
    (hnc : lockConflicts w.locks name (lockModeOf rdonlyFlags) = false)
    (closeFault : Option GoError) :
    (Read w name none none closeFault).2 = .ok d.content := by
  have ho : openFile w name rdonlyFlags 0 none =
      .ok { w with fs := updFS w.fs name d,
                   locks := (name, lockModeOf rdonlyFlags) :: w.locks } := by
    unfold openFile
    rw [if_neg (by simp [hnc]), hfs]
    rfl
  have hw : OpenFile w name rdonlyFlags 0 none =
      ({ w with fs := updFS w.fs name d,
                locks := (name, lockModeOf rdonlyFlags) :: w.locks },
       .ok ⟨name, false, true⟩) := by
    unfold OpenFile; rw [ho]
  simp [Read, Open, hw, File.Close, closeFile, updFS_same]

/-- C4: a successful `Write(path, content, perm)` followed by
`Read(path)` on the resulting state yields exactly `content`, whatever
the file held before the `Write`. -/
theorem write_read_roundtrip (w : World) (name : String)
    (content : List Nat) (perm : Nat)
    (h : (Write w name content perm none none none).2 = none) :
    (Read (Write w name content perm none none none).1
        name none none none).2 = .ok content := by
  cases ho : openFile w name writeFlags perm none with
  | error e =>
    have hW : Write w name content perm none none none = (w, some e) := by
      unfold Write
      rw [OpenFile_eq_of_error w name writeFlags perm none e ho]
    rw [hW] at h
    exact Option.noConfusion h
  | ok w1 =>
    obtain ⟨-, hnc, hlocks, -, d, hfs, -, -, -⟩ :=
      openFile_ok_inv w name writeFlags perm none w1 ho
    have hw1fs : w1.fs name = some d := by rw [hfs]; exact updFS_same _ _ _
    have hsc : setContent w1 name content =
        { w1 with fs := updFS w1.fs name ⟨content, d.perm⟩ } := by
      unfold setContent; rw [hw1fs]
    have hrm : removeLock w1.locks name = w.locks := by
      rw [hlocks]; exact removeLock_cons_self _ _ _
    have hW : (Write w name content perm none none none).1 =
        { w1 with fs := updFS w1.fs name ⟨content, d.perm⟩,
                  locks := w.locks, releases := w1.releases + 1 } := by
      unfold Write
      rw [OpenFile_eq_of_ok w name writeFlags perm none w1 ho]
      simp [File.Close, closeFile, hsc, hrm]
    rw [hW]
    have hexcl : lockConflicts w.locks name .exclusive = false := hnc
    exact Read_ok_aux
      { w1 with fs := updFS w1.fs name ⟨content, d.perm⟩,
                locks := w.locks, releases := w1.releases + 1 }
      name ⟨content, d.perm⟩
      (show updFS w1.fs name ⟨content, d.perm⟩ name =
          some ⟨content, d.perm⟩ from updFS_same _ _ _)
      (lockConflicts_false_of_exclusive_false _ _ hexcl _) none

/-- C4 witness: writing fresh bytes over a file that previously held
other bytes, then reading, yields exactly the new bytes. -/
theorem write_read_roundtrip_witness :
    (Read (Write wPre "p" [104, 105] 438 none none none).1
        "p" none none none).2 = .ok [104, 105] :=
  write_read_roundtrip wPre "p" [104, 105] 438 rfl

end Lockedfile
